import Mathlib

/-!
Verification of the task-supervisor core (`internal/client/worker.go`) and the
MySQL SQL statement builder (`internal/client/driver/mysql/sql/builder.go`)
of this repository, via a shallow embedding of the relevant code in Lean 4.
-/

namespace Dtle

/-! ## Task state symbols and the supervisor run-loop trace model

`Worker.run` is a select loop.  We model the sequence of state symbols it
passes to the updater (`setState`) as an inductive trace relation: each
constructor corresponds to one select arm (or one branch inside an arm) of
`Worker.run` / `Worker.shouldRestart`, emitting exactly the symbols the
corresponding code path emits, in order.  Event arrivals, driver outcomes and
restart-tracker decisions are external inputs and hence nondeterministic
choices between constructors. -/

/-- A task state symbol as passed to the updater: `models.TaskStatePending`,
`models.TaskStateRunning`, `models.TaskStateDead`, or the reserved empty
string `""` (event-only transition). -/
inductive Sym
  | pending
  | running
  | dead
  | empty
deriving DecidableEq, Repr

/-- Control location of the run loop: either inside the inner `WAIT` select
(with the flag telling whether a handle exists, which in `WAIT` coincides
with `running`), or at the `RESTART` label. -/
inductive Phase
  | wait (started : Bool)
  | restartGate
deriving DecidableEq, Repr

/-- `Emits p tr`: from control location `p`, the run loop can run to
completion emitting exactly the state symbols `tr` (in order) to the updater.
Each constructor is one code path of `Worker.run` / `Worker.shouldRestart`:

* `prestartTrue` — the `prestartResultCh` arm with `success = true` (the
  only value `Worker.prestart` can send);
* `startNoop` — the `startCh` arm when a handle already exists;
* `startFail` — the `startCh` arm, `startTask` fails: `setState("",
  DriverFailure)` then `goto RESTART`;
* `startOk` — the `startCh` arm, `startTask` succeeds: `setState(Running,
  TaskStarted)`, `running := true`;
* `waitResult` — the `handleWaitCh` arm: `setState("", Terminated)`, `break
  WAIT` (requires a live handle, i.e. `started = true`);
* `restartIdle` — the `restartCh` arm while not running: log and continue;
* `restartRunning` — the `restartCh` arm while running:
  `setState(Running, event)`; `killTask` emits `setState(Running, Killing)`
  and `setState("", Killed)`; `break WAIT`;
* `destroyIdle` — the `destroyCh` arm while not running:
  `setState(Dead, destroyEvent)`, return;
* `destroyKill` — the `destroyCh` arm while running, destroy event of kind
  `TaskKilled` or `TaskKilling`: `killTask` emits `Running` and `""`, then
  `setState(Dead, nil)`, return;
* `destroyOther` — the `destroyCh` arm while running, any other destroy
  event kind: additionally `setState(Running, destroyEvent)` first;
* `gateNotRestarting` — `shouldRestart` with tracker decision
  `TaskNotRestarting`: `shouldRestart` emits `setState(Dead, NotRestarting)`
  and returns false, whereupon `run` emits `setState(Dead, nil)` again;
* `gateTerminated` — tracker decision `TaskTerminated`: `shouldRestart`
  emits nothing and returns false; `run` emits `setState(Dead, nil)`;
* `gateRestartDestroyed` — tracker decision `TaskRestarting` but a destroy
  arrives during the restart delay: `setState(Pending, Restarting)`,
  `setState(Dead, destroyEvent)`, return false; `run` emits
  `setState(Dead, nil)`;
* `gateRestart` — tracker decision `TaskRestarting`, no destroy during the
  delay: `setState(Pending, Restarting)`, clear the handle, loop. -/
inductive Emits : Phase → List Sym → Prop
  | prestartTrue {s : Bool} {tr : List Sym} :
      Emits (.wait s) tr → Emits (.wait s) tr
  | startNoop {tr : List Sym} :
      Emits (.wait true) tr → Emits (.wait true) tr
  | startFail {tr : List Sym} :
      Emits .restartGate tr → Emits (.wait false) (.empty :: tr)
  | startOk {tr : List Sym} :
      Emits (.wait true) tr → Emits (.wait false) (.running :: tr)
  | waitResult {tr : List Sym} :
      Emits .restartGate tr → Emits (.wait true) (.empty :: tr)
  | restartIdle {tr : List Sym} :
      Emits (.wait false) tr → Emits (.wait false) tr
  | restartRunning {tr : List Sym} :
      Emits .restartGate tr →
      Emits (.wait true) (.running :: .running :: .empty :: tr)
  | destroyIdle : Emits (.wait false) [.dead]
  | destroyKill : Emits (.wait true) [.running, .empty, .dead]
  | destroyOther : Emits (.wait true) [.running, .running, .empty, .dead]
  | gateNotRestarting : Emits .restartGate [.dead, .dead]
  | gateTerminated : Emits .restartGate [.dead]
  | gateRestartDestroyed : Emits .restartGate [.pending, .dead, .dead]
  | gateRestart {tr : List Sym} :
      Emits (.wait false) tr → Emits .restartGate (.pending :: tr)

/-- `SupRun tr`: a complete supervisor run emitting the state symbols `tr`.
`setupFail` is the `createDriver` failure at `Worker.Run` entry
(`setState(Dead, SetupFailure)`); `fresh` enters the run loop without a
restored handle; `restored` enters it with a restored handle (and
`running = true`); `received` prepends the `(Pending, TaskReceived)`
emission of `MarkReceived`, which the allocation runner performs before
`Run`. -/
inductive SupRun : List Sym → Prop
  | setupFail : SupRun [Sym.dead]
  | fresh {tr : List Sym} : Emits (.wait false) tr → SupRun tr
  | restored {tr : List Sym} : Emits (.wait true) tr → SupRun tr
  | received {tr : List Sym} : SupRun tr → SupRun (Sym.pending :: tr)

/-- The non-empty state symbols of a trace (the empty symbol means
"event only, no state change"). -/
def stateSyms : List Sym → List Sym
  | [] => []
  | Sym.empty :: tr => stateSyms tr
  | s :: tr => s :: stateSyms tr

/-- The regular language `Pending? (Running | Pending)* Dead`, `Dead` final,
that the claim asserts for the non-empty state-symbol sequence. -/
def claimedLang : List Sym → Bool
  | [] => false
  | Sym.running :: rest => claimedLang rest
  | Sym.pending :: rest => claimedLang rest
  | [Sym.dead] => true
  | _ => false

/-- The regular language `Pending? (Running | Pending)* Dead Dead?`: after
the first `Dead` at most one further symbol is emitted, and that symbol is
`Dead`. -/
def amendedLang : List Sym → Bool
  | [] => false
  | Sym.running :: rest => amendedLang rest
  | Sym.pending :: rest => amendedLang rest
  | [Sym.dead] => true
  | [Sym.dead, Sym.dead] => true
  | _ => false

theorem emits_amendedLang {p : Phase} {tr : List Sym} (h : Emits p tr) :
    amendedLang (stateSyms tr) = true := by
  induction h with
  | prestartTrue _ ih => exact ih
  | startNoop _ ih => exact ih
  | startFail _ ih => simpa [stateSyms] using ih
  | startOk _ ih => simpa [stateSyms, amendedLang] using ih
  | waitResult _ ih => simpa [stateSyms] using ih
  | restartIdle _ ih => exact ih
  | restartRunning _ ih => simpa [stateSyms, amendedLang] using ih
  | destroyIdle => decide
  | destroyKill => decide
  | destroyOther => decide
  | gateNotRestarting => decide
  | gateTerminated => decide
  | gateRestartDestroyed => decide
  | gateRestart _ ih => simpa [stateSyms, amendedLang] using ih

/-- C1 (counterexample): a real supervisor run — `startTask` fails with a
non-recoverable error (`setState("", DriverFailure)`), then the restart
tracker decides `TaskNotRestarting`, so `shouldRestart` emits
`setState(Dead, NotRestarting)`, returns false, and `run` emits
`setState(Dead, nil)` a second time.  The non-empty state-symbol sequence is
`[Dead, Dead]`, which is not in `Pending? (Running | Pending)* Dead`, and a
state symbol is emitted after the first `Dead`, refuting the claim. -/
theorem c1_counterexample :
    SupRun [Sym.empty, Sym.dead, Sym.dead] ∧
      stateSyms [Sym.empty, Sym.dead, Sym.dead] = [Sym.dead, Sym.dead] ∧
      claimedLang (stateSyms [Sym.empty, Sym.dead, Sym.dead]) = false := by
  refine ⟨SupRun.fresh (Emits.startFail Emits.gateNotRestarting), by decide, by decide⟩

/-- C1 (amended): for every complete supervisor run, the sequence of
non-empty state symbols passed to the updater matches
`Pending? (Running | Pending)* Dead Dead?`: the trace ends in a `Dead`,
possibly doubled (when `shouldRestart` itself emits `Dead` — tracker
decision `NotRestarting`, or destroy during the restart delay — the run
loop emits one further `Dead`), and no symbol other than `Dead` ever
follows a `Dead`. -/
theorem c1_amended {tr : List Sym} (h : SupRun tr) :
    amendedLang (stateSyms tr) = true := by
  induction h with
  | setupFail => decide
  | fresh h => exact emits_amendedLang h
  | restored h => exact emits_amendedLang h
  | received _ ih => simpa [stateSyms, amendedLang] using ih

/-- Witness for C1 (amended) at a concrete run: destroy observed while not
running emits the single symbol `Dead`. -/
theorem c1_amended_witness : amendedLang (stateSyms [Sym.dead]) = true :=
  c1_amended (SupRun.fresh Emits.destroyIdle)

/-! ## Kill executor: `Worker.handleDestroy` -/

/-- Baseline backoff while killing a task, in seconds
(Go: `killBackoffBaseline = 5 * time.Second`). -/
def killBackoffBaseline : Nat := 5

/-- Backoff cap, in seconds (Go: `killBackoffLimit = 2 * time.Minute`). -/
def killBackoffLimit : Nat := 120

/-- Maximum number of shutdown attempts (Go: `killFailureLimit = 5`). -/
def killFailureLimit : Nat := 5

/-- The backoff computed by `Worker.handleDestroy` after the failed attempt
with zero-based index `i`:
`backoff := (1 << (2 * uint64(i))) * killBackoffBaseline;
 if backoff > killBackoffLimit { backoff = killBackoffLimit }`.
(For the reachable `i < 5` the Go shift cannot overflow `int64`.) -/
def killBackoff (i : Nat) : Nat :=
  let backoff := (1 <<< (2 * i)) * killBackoffBaseline
  if backoff > killBackoffLimit then killBackoffLimit else backoff

/-- Observable outcome of one `handleDestroy` call: the returned pair
`(destroyed, err)`, the list of backoff sleeps performed (seconds), and the
number of `handle.Shutdown()` calls made. -/
structure DestroyRun where
  destroyed : Bool
  lastErr : Option String
  sleeps : List Nat
  calls : Nat
deriving DecidableEq, Repr

/-- Loop body of `Worker.handleDestroy`: `i` is the current attempt index,
`fuel = killFailureLimit - i` the remaining attempts, `lastErr` the named
return `err`, `sleeps` and `calls` the instrumentation accumulators.
`shutdown j = none` models `handle.Shutdown()` succeeding on attempt `j`,
`some e` models it failing with error `e`. -/
def handleDestroyAux (shutdown : Nat → Option String) :
    Nat → Nat → Option String → List Nat → Nat → DestroyRun
  | _, 0, lastErr, sleeps, calls => ⟨false, lastErr, sleeps, calls⟩
  | i, fuel + 1, _, sleeps, calls =>
    match shutdown i with
    | none => ⟨true, none, sleeps, calls + 1⟩
    | some e =>
      handleDestroyAux shutdown (i + 1) fuel (some e)
        (sleeps ++ [killBackoff i]) (calls + 1)

/-- `Worker.handleDestroy`: calls `handle.Shutdown()` up to
`killFailureLimit` times, sleeping `killBackoff i` after the failed attempt
with index `i`; returns `(true, nil)` on the first success and
`(false, err)` with the last error after exhausting all attempts. -/
def handleDestroy (shutdown : Nat → Option String) : DestroyRun :=
  handleDestroyAux shutdown 0 killFailureLimit none [] 0

theorem handleDestroyAux_zero (shutdown : Nat → Option String)
    (i : Nat) (lastErr : Option String) (sleeps : List Nat) (calls : Nat) :
    handleDestroyAux shutdown i 0 lastErr sleeps calls =
      ⟨false, lastErr, sleeps, calls⟩ := rfl

theorem handleDestroyAux_succ_none (shutdown : Nat → Option String)
    {i : Nat} (fuel : Nat) (lastErr : Option String) (sleeps : List Nat)
    (calls : Nat) (h : shutdown i = none) :
    handleDestroyAux shutdown i (fuel + 1) lastErr sleeps calls =
      ⟨true, none, sleeps, calls + 1⟩ := by
  rw [handleDestroyAux, h]

theorem handleDestroyAux_succ_some (shutdown : Nat → Option String)
    {i : Nat} {e : String} (fuel : Nat) (lastErr : Option String)
    (sleeps : List Nat) (calls : Nat) (h : shutdown i = some e) :
    handleDestroyAux shutdown i (fuel + 1) lastErr sleeps calls =
      handleDestroyAux shutdown (i + 1) fuel (some e)
        (sleeps ++ [killBackoff i]) (calls + 1) := by
  rw [handleDestroyAux, h]

theorem killBackoff_shift (i k : Nat) :
    (List.range (k + 1)).map (fun j => killBackoff (i + j)) =
      killBackoff i :: (List.range k).map (fun j => killBackoff (i + 1 + j)) := by
  rw [List.range_succ_eq_map, List.map_cons, List.map_map, Nat.add_zero]
  congr 1
  apply List.map_congr_left
  intro a _
  simp only [Function.comp_apply]
  congr 1
  omega

theorem handleDestroyAux_calls_le (shutdown : Nat → Option String) :
    ∀ fuel i lastErr sleeps calls,
      (handleDestroyAux shutdown i fuel lastErr sleeps calls).calls ≤
        calls + fuel := by
  intro fuel
  induction fuel with
  | zero =>
    intro i lastErr sleeps calls
    rw [handleDestroyAux_zero]
    show calls ≤ calls + 0
    omega
  | succ n ih =>
    intro i lastErr sleeps calls
    cases h : shutdown i with
    | none =>
      rw [handleDestroyAux_succ_none shutdown n lastErr sleeps calls h]
      show calls + 1 ≤ calls + (n + 1)
      omega
    | some e =>
      rw [handleDestroyAux_succ_some shutdown n lastErr sleeps calls h]
      calc (handleDestroyAux shutdown (i + 1) n (some e)
              (sleeps ++ [killBackoff i]) (calls + 1)).calls
          ≤ calls + 1 + n := ih (i + 1) (some e) _ (calls + 1)
        _ ≤ calls + (n + 1) := by omega

theorem handleDestroyAux_first_success (shutdown : Nat → Option String) :
    ∀ k i fuel lastErr sleeps calls, k < fuel →
      shutdown (i + k) = none → (∀ j, j < k → shutdown (i + j) ≠ none) →
      handleDestroyAux shutdown i fuel lastErr sleeps calls =
        ⟨true, none,
          sleeps ++ (List.range k).map (fun j => killBackoff (i + j)),
          calls + k + 1⟩ := by
  intro k
  induction k with
  | zero =>
    intro i fuel lastErr sleeps calls hk hok _
    obtain ⟨m, rfl⟩ : ∃ m, fuel = m + 1 := ⟨fuel - 1, by omega⟩
    have hok' : shutdown i = none := by simpa using hok
    rw [handleDestroyAux_succ_none shutdown m lastErr sleeps calls hok']
    simp
  | succ k ih =>
    intro i fuel lastErr sleeps calls hk hok hfail
    obtain ⟨m, rfl⟩ : ∃ m, fuel = m + 1 := ⟨fuel - 1, by omega⟩
    have h0 : shutdown i ≠ none := by
      have := hfail 0 (by omega); simpa using this
    obtain ⟨e, he⟩ : ∃ e, shutdown i = some e := by
      cases h : shutdown i with
      | none => exact absurd h h0
      | some e => exact ⟨e, rfl⟩
    rw [handleDestroyAux_succ_some shutdown m lastErr sleeps calls he]
    have hrec := ih (i + 1) m (some e) (sleeps ++ [killBackoff i]) (calls + 1)
      (by omega)
      (by have h1 : i + 1 + k = i + (k + 1) := by omega
          rw [h1]; exact hok)
      (by intro j hj
          have h1 : i + 1 + j = i + (j + 1) := by omega
          rw [h1]; exact hfail (j + 1) (by omega))
    rw [hrec]
    congr 1
    · conv_rhs => rw [killBackoff_shift i k]
      rw [List.append_assoc, List.singleton_append]
    · omega

theorem handleDestroyAux_all_fail (shutdown : Nat → Option String) :
    ∀ m i lastErr sleeps calls,
      (∀ j, j < m + 1 → shutdown (i + j) ≠ none) →
      handleDestroyAux shutdown i (m + 1) lastErr sleeps calls =
        ⟨false, shutdown (i + m),
          sleeps ++ (List.range (m + 1)).map (fun j => killBackoff (i + j)),
          calls + m + 1⟩ := by
  intro m
  induction m with
  | zero =>
    intro i lastErr sleeps calls hfail
    have h0 : shutdown i ≠ none := by
      have := hfail 0 (by omega); simpa using this
    obtain ⟨e, he⟩ : ∃ e, shutdown i = some e := by
      cases h : shutdown i with
      | none => exact absurd h h0
      | some e => exact ⟨e, rfl⟩
    rw [handleDestroyAux_succ_some shutdown 0 lastErr sleeps calls he,
      handleDestroyAux_zero]
    simp [he, List.range_succ]
  | succ m ih =>
    intro i lastErr sleeps calls hfail
    have h0 : shutdown i ≠ none := by
      have := hfail 0 (by omega); simpa using this
    obtain ⟨e, he⟩ : ∃ e, shutdown i = some e := by
      cases h : shutdown i with
      | none => exact absurd h h0
      | some e => exact ⟨e, rfl⟩
    rw [handleDestroyAux_succ_some shutdown (m + 1) lastErr sleeps calls he]
    have hrec := ih (i + 1) (some e) (sleeps ++ [killBackoff i]) (calls + 1)
      (by intro j hj
          have h1 : i + 1 + j = i + (j + 1) := by omega
          rw [h1]; exact hfail (j + 1) (by omega))
    rw [hrec]
    congr 1
    · congr 1
      omega
    · conv_rhs => rw [killBackoff_shift i (m + 1)]
      rw [List.append_assoc, List.singleton_append]
    · omega

/-- C2: `handleDestroy` calls `handle.Shutdown` at most 5 times; the backoff
slept after the failed attempt with zero-based index `i` is
`min(5s · 4^i, 120s)` (so the delay sequence under repeated failure is
5s, 20s, 80s, 120s, 120s); it returns `(true, nil)` as soon as some attempt
succeeds, having slept exactly after each preceding failed attempt; and it
returns `(false, last_error)` after 5 failed attempts. -/
theorem c2_handleDestroy_spec (shutdown : Nat → Option String) :
    (handleDestroy shutdown).calls ≤ 5 ∧
    (∀ i, killBackoff i = min (killBackoffBaseline * 4 ^ i) killBackoffLimit) ∧
    (∀ k, k < 5 → shutdown k = none → (∀ j, j < k → shutdown j ≠ none) →
      handleDestroy shutdown =
        ⟨true, none, (List.range k).map killBackoff, k + 1⟩) ∧
    ((∀ j, j < 5 → shutdown j ≠ none) →
      handleDestroy shutdown =
        ⟨false, shutdown 4, [5, 20, 80, 120, 120], 5⟩) := by
  refine ⟨?_, ?_, ?_, ?_⟩
  · exact handleDestroyAux_calls_le shutdown 5 0 none [] 0
  · intro i
    show (if (1 <<< (2 * i)) * killBackoffBaseline > killBackoffLimit
        then killBackoffLimit else (1 <<< (2 * i)) * killBackoffBaseline) = _
    have hpow : (1 <<< (2 * i)) * killBackoffBaseline =
        killBackoffBaseline * 4 ^ i := by
      rw [Nat.shiftLeft_eq, Nat.one_mul, Nat.pow_mul]
      ring
    rw [hpow]
    rcases le_or_lt (killBackoffBaseline * 4 ^ i) killBackoffLimit with h | h
    · rw [if_neg (by omega), Nat.min_eq_left h]
    · rw [if_pos h, Nat.min_eq_right (by omega)]
  · intro k hk hok hfail
    have := handleDestroyAux_first_success shutdown k 0 killFailureLimit
      none [] 0 hk (by simpa using hok) (by simpa using hfail)
    simpa [handleDestroy, killFailureLimit] using this
  · intro hfail
    have := handleDestroyAux_all_fail shutdown 4 0 none [] 0
      (by simpa using hfail)
    rw [handleDestroy]
    show handleDestroyAux shutdown 0 killFailureLimit none [] 0 = _
    rw [show killFailureLimit = 4 + 1 from rfl, this]
    congr 1

/-- Witness for C2 at concrete shutdown behaviour: every attempt fails, so
`handleDestroy` makes 5 calls, sleeps 5s, 20s, 80s, 120s, 120s, and returns
`(false, last error)`; and the backoff formula at index 3 caps at 120s. -/
theorem c2_handleDestroy_spec_witness :
    handleDestroy (fun j => some (toString j)) =
      ⟨false, some "4", [5, 20, 80, 120, 120], 5⟩ ∧
    killBackoff 3 = min (killBackoffBaseline * 4 ^ 3) killBackoffLimit := by
  refine ⟨?_, (c2_handleDestroy_spec fun j => some (toString j)).2.1 3⟩
  exact (c2_handleDestroy_spec fun j => some (toString j)).2.2.2
    (by intro j hj; simp)

/-! ## SQL statement builder: escaping and comparison builders -/

/-- Unquote the body of a Go quoted literal, one character at a time
(model of the escape handling of the Go standard library's
`strconv.Unquote`; only the simple one-character escapes are accepted,
which is conservative — identifiers passed by this repository are never
quoted, so `strconv.Unquote` fails on them and the name is kept as-is). -/
def unquoteBody (quote : Char) : List Char → Option (List Char)
  | [] => some []
  | '\\' :: c :: rest =>
    let esc : Option Char :=
      if c = 'a' then some (Char.ofNat 7)
      else if c = 'b' then some (Char.ofNat 8)
      else if c = 'f' then some (Char.ofNat 12)
      else if c = 'n' then some '\n'
      else if c = 'r' then some '\r'
      else if c = 't' then some '\t'
      else if c = 'v' then some (Char.ofNat 11)
      else if c = '\\' then some '\\'
      else if c = quote then some quote
      else none
    match esc with
    | none => none
    | some ch => (unquoteBody quote rest).map (ch :: ·)
  | ['\\'] => none
  | c :: rest =>
    if c = quote ∨ c = '\n' then none
    else (unquoteBody quote rest).map (c :: ·)

/-- Model of the Go standard-library function `strconv.Unquote`: succeeds
only on a valid Go quoted literal (raw string in backquotes, double-quoted
string, or single-quoted character). -/
def goUnquote (s : String) : Option String :=
  if s.length < 2 then none
  else
    let cs := s.data
    let q := cs.headD ' '
    let lastc := cs.getLastD ' '
    let mid := (cs.drop 1).dropLast
    if q ≠ lastc then none
    else if q = '`' then
      if mid.contains '`' ∨ mid.contains '\r' then none
      else some ⟨mid⟩
    else if q = '"' then
      (unquoteBody '"' mid).map fun l => ⟨l⟩
    else if q = '\'' then
      match unquoteBody '\'' mid with
      | some [c] => some ⟨[c]⟩
      | _ => none
    else none

/-- `EscapeName`: escape a db/table/column name by wrapping it in backticks
after attempting one round of quote-unwrapping via `strconv.Unquote`. -/
def EscapeName (name : String) : String :=
  let name' := match goUnquote name with
    | some unquoted => unquoted
    | none => name
  "`" ++ name' ++ "`"

/-- Go `ValueComparisonSign` constant `LessThanComparisonSign`. -/
def LessThanComparisonSign : String := "<"

/-- Go `ValueComparisonSign` constant `LessThanOrEqualsComparisonSign`. -/
def LessThanOrEqualsComparisonSign : String := "<="

/-- Go `ValueComparisonSign` constant `EqualsComparisonSign`. -/
def EqualsComparisonSign : String := "="

/-- Go `ValueComparisonSign` constant `GreaterThanOrEqualsComparisonSign`. -/
def GreaterThanOrEqualsComparisonSign : String := ">="

/-- Go `ValueComparisonSign` constant `GreaterThanComparisonSign`. -/
def GreaterThanComparisonSign : String := ">"

/-- `buildPreparedValues`: a list of `length` placeholder tokens. -/
def buildPreparedValues (length : Nat) : List String :=
  List.replicate length "?"

/-- `BuildValueComparison column value sign` =
`(EscapeName(column) sign value)`, rejecting empty columns and values. -/
def BuildValueComparison (column value comparisonSign : String) :
    Except String String :=
  if column = "" then .error "Empty column in GetValueComparison"
  else if value = "" then .error "Empty value in GetValueComparison"
  else .ok ("(" ++ EscapeName column ++ " " ++ comparisonSign ++ " " ++
    value ++ ")")

/-- The per-column loop of `BuildEqualsComparison`, over the zipped
column/value pairs (the function checks the lengths are equal before). -/
def equalsCompList : List (String × String) → Except String (List String)
  | [] => .ok []
  | (c, v) :: rest => do
    let comparison ← BuildValueComparison c v EqualsComparisonSign
    let comparisons ← equalsCompList rest
    .ok (comparison :: comparisons)

/-- `BuildEqualsComparison columns values` =
`((c1 = v1) and … and (cn = vn))`. -/
def BuildEqualsComparison (columns values : List String) :
    Except String String :=
  if columns.length = 0 then
    .error "Got 0 columns in GetEqualsComparison"
  else if columns.length ≠ values.length then
    .error ("Got " ++ toString columns.length ++ " columns but " ++
      toString values.length ++ " values in GetEqualsComparison")
  else do
    let comparisons ← equalsCompList (columns.zip values)
    .ok ("(" ++ String.intercalate " and " comparisons ++ ")")

/-- `BuildEqualsPreparedComparison columns`: equality against `?`
placeholders. -/
def BuildEqualsPreparedComparison (columns : List String) :
    Except String String :=
  BuildEqualsComparison columns (buildPreparedValues columns.length)

/-- The per-column loop of `BuildRangeComparison`: `pre` is the slice of
already-visited `((column, value), arg)` triples (Go's `columns[0:i]`,
`values[0:i]`, `args[0:i]`), the second argument the remaining triples.
Returns the predicate fragments and the exploded args, in emission order. -/
def rangeCompAux (comparisonSign : String) :
    List ((String × String) × String) → List ((String × String) × String) →
    Except String (List String × List String)
  | _, [] => .ok ([], [])
  | pre, ((c, v), a) :: rest => do
    let rangeComparison ← BuildValueComparison c v comparisonSign
    if pre.isEmpty then do
      let (comparisons, explodedArgs) ←
        rangeCompAux comparisonSign (pre ++ [((c, v), a)]) rest
      .ok (rangeComparison :: comparisons, a :: explodedArgs)
    else do
      let equalitiesComparison ←
        BuildEqualsComparison (pre.map (·.1.1)) (pre.map (·.1.2))
      let (comparisons, explodedArgs) ←
        rangeCompAux comparisonSign (pre ++ [((c, v), a)]) rest
      .ok (("(" ++ equalitiesComparison ++ " AND " ++ rangeComparison ++ ")")
          :: comparisons,
        (pre.map (·.2) ++ [a]) ++ explodedArgs)

/-- `BuildRangeComparison columns values args sign`: the multi-column range
predicate and its exploded argument vector.  Note the Go quirk on the
`includeEquals` branch: if `BuildEqualsComparison` fails there, the function
returns `("", explodedArgs, nil)` — an empty result with a nil error. -/
def BuildRangeComparison (columns values args : List String)
    (comparisonSign : String) : Except String (String × List String) :=
  if columns.length = 0 then
    .error "Got 0 columns in GetRangeComparison"
  else if columns.length ≠ values.length then
    .error ("Got " ++ toString columns.length ++ " columns but " ++
      toString values.length ++ " values in GetEqualsComparison")
  else if columns.length ≠ args.length then
    .error ("Got " ++ toString columns.length ++ " columns but " ++
      toString args.length ++ " args in GetEqualsComparison")
  else
    let includeEquals :=
      (comparisonSign == LessThanOrEqualsComparisonSign) ||
        (comparisonSign == GreaterThanOrEqualsComparisonSign)
    let sign :=
      if comparisonSign == LessThanOrEqualsComparisonSign then
        LessThanComparisonSign
      else if comparisonSign == GreaterThanOrEqualsComparisonSign then
        GreaterThanComparisonSign
      else comparisonSign
    match rangeCompAux sign [] ((columns.zip values).zip args) with
    | .error e => .error e
    | .ok (comparisons, explodedArgs) =>
      if includeEquals then
        match BuildEqualsComparison columns values with
        | .error _ => .ok ("", explodedArgs)
        | .ok comparison =>
          .ok ("(" ++
              String.intercalate " or " (comparisons ++ [comparison]) ++ ")",
            explodedArgs ++ args)
      else
        .ok ("(" ++ String.intercalate " or " comparisons ++ ")",
          explodedArgs)

/-! Claim-side description of the range predicate (from the claim's formula
`(c1 op v1) OR (c1 = v1 AND c2 op v2) OR …`, for comparison with
`BuildRangeComparison`). -/

/-- The equality conjunct `((c1 = v1) and … and (ck = vk))` over the pairs
`l`, as the claim writes it. -/
def claimEquals (l : List (String × String)) : String :=
  "(" ++ String.intercalate " and "
    (l.map fun p =>
      "(" ++ EscapeName p.1 ++ " " ++ EqualsComparisonSign ++ " " ++ p.2 ++ ")")
    ++ ")"

/-- The claim's disjunct list: for the first column just `(c1 op v1)`, for
each later column `(c1 = v1 AND … AND c_{i-1} = v_{i-1} AND c_i op v_i)`. -/
def claimFrags (sign : String) :
    List (String × String) → List (String × String) → List String
  | _, [] => []
  | pre, (c, v) :: rest =>
    (if pre.isEmpty then "(" ++ EscapeName c ++ " " ++ sign ++ " " ++ v ++ ")"
     else "(" ++ claimEquals pre ++ " AND " ++
       ("(" ++ EscapeName c ++ " " ++ sign ++ " " ++ v ++ ")") ++ ")")
    :: claimFrags sign (pre ++ [(c, v)]) rest

/-- The claim's exploded argument order: for the fragment at zero-based
index `i`, the args of its equality prefix followed by the arg of its range
conjunct (`args[0:i] ++ [args[i]]`). -/
def claimArgOrder : List String → List String → List String
  | _, [] => []
  | preArgs, a :: rest => (preArgs ++ [a]) ++ claimArgOrder (preArgs ++ [a]) rest

theorem except_ok_bind {α β ε : Type} (a : α) (f : α → Except ε β) :
    (Except.ok a >>= f : Except ε β) = f a := rfl

theorem BuildValueComparison_ok {c v : String} (hc : c ≠ "") (hv : v ≠ "")
    (sign : String) :
    BuildValueComparison c v sign =
      .ok ("(" ++ EscapeName c ++ " " ++ sign ++ " " ++ v ++ ")") := by
  unfold BuildValueComparison
  rw [if_neg hc, if_neg hv]

theorem equalsCompList_ok :
    ∀ l : List (String × String), (∀ p ∈ l, p.1 ≠ "" ∧ p.2 ≠ "") →
      equalsCompList l =
        .ok (l.map fun p =>
          "(" ++ EscapeName p.1 ++ " " ++ EqualsComparisonSign ++ " " ++
            p.2 ++ ")") := by
  intro l
  induction l with
  | nil => intro _; rfl
  | cons p rest ih =>
    intro h
    obtain ⟨c, v⟩ := p
    have hc : c ≠ "" := (h (c, v) (List.mem_cons_self _ rest)).1
    have hv : v ≠ "" := (h (c, v) (List.mem_cons_self _ rest)).2
    simp only [equalsCompList]
    rw [BuildValueComparison_ok hc hv,
      ih (fun q hq => h q (List.mem_cons_of_mem _ hq))]
    rfl

theorem zip_map_fst_snd' {α β : Type} :
    ∀ l : List (α × β), (l.map Prod.fst).zip (l.map Prod.snd) = l := by
  intro l
  induction l with
  | nil => rfl
  | cons p rest ih => simp [ih]

theorem BuildEqualsComparison_ok (columns values : List String)
    (hne : columns ≠ []) (hlen : columns.length = values.length)
    (h : ∀ p ∈ columns.zip values, p.1 ≠ "" ∧ p.2 ≠ "") :
    BuildEqualsComparison columns values =
      .ok (claimEquals (columns.zip values)) := by
  unfold BuildEqualsComparison
  rw [if_neg (by simpa using hne), if_neg (by omega)]
  rw [equalsCompList_ok _ h]
  rfl

theorem rangeCompAux_ok (sign : String) :
    ∀ (rest pre : List ((String × String) × String)),
      (∀ p ∈ pre, p.1.1 ≠ "" ∧ p.1.2 ≠ "") →
      (∀ p ∈ rest, p.1.1 ≠ "" ∧ p.1.2 ≠ "") →
      rangeCompAux sign pre rest =
        .ok (claimFrags sign (pre.map (·.1)) (rest.map (·.1)),
          claimArgOrder (pre.map (·.2)) (rest.map (·.2))) := by
  intro rest
  induction rest with
  | nil => intro pre _ _; rfl
  | cons p rest ih =>
    intro pre hpre hrest
    obtain ⟨⟨c, v⟩, a⟩ := p
    have hc : c ≠ "" := (hrest _ (List.mem_cons_self _ rest)).1
    have hv : v ≠ "" := (hrest _ (List.mem_cons_self _ rest)).2
    have hrest' : ∀ q ∈ rest, q.1.1 ≠ "" ∧ q.1.2 ≠ "" :=
      fun q hq => hrest q (List.mem_cons_of_mem _ hq)
    have hpre' : ∀ q ∈ pre ++ [((c, v), a)], q.1.1 ≠ "" ∧ q.1.2 ≠ "" := by
      intro q hq
      rcases List.mem_append.1 hq with hq | hq
      · exact hpre q hq
      · simp at hq
        subst hq
        exact ⟨hc, hv⟩
    have hrec := ih (pre ++ [((c, v), a)]) hpre' hrest'
    by_cases hp : pre = []
    · subst hp
      simp only [rangeCompAux]
      rw [BuildValueComparison_ok hc hv]
      simp only [except_ok_bind, List.isEmpty_nil, if_true]
      simp only [List.nil_append] at hrec ⊢
      rw [hrec]
      simp only [except_ok_bind, List.map_cons, List.map_nil, claimFrags,
        claimArgOrder, List.isEmpty_nil, if_true]
      rfl
    · obtain ⟨q, qs, rfl⟩ := List.exists_cons_of_ne_nil hp
      simp only [rangeCompAux]
      rw [BuildValueComparison_ok hc hv]
      simp only [except_ok_bind, List.isEmpty_cons, Bool.false_eq_true,
        if_false]
      have heq : BuildEqualsComparison ((q :: qs).map (·.1.1))
          ((q :: qs).map (·.1.2)) =
          .ok (claimEquals ((q :: qs).map (·.1))) := by
        have h1 : (q :: qs).map (·.1.1) = ((q :: qs).map (·.1)).map Prod.fst := by
          simp [List.map_map]
        have h2 : (q :: qs).map (·.1.2) = ((q :: qs).map (·.1)).map Prod.snd := by
          simp [List.map_map]
        have hz : (((q :: qs).map (·.1.1)).zip ((q :: qs).map (·.1.2))) =
            (q :: qs).map (·.1) := by
          rw [h1, h2, zip_map_fst_snd']
        refine Eq.trans (BuildEqualsComparison_ok _ _ (by simp) (by simp) ?_) ?_
        · rw [hz]
          intro r hr
          simp only [List.mem_map] at hr
          obtain ⟨r', hr', rfl⟩ := hr
          exact hpre r' hr'
        · rw [hz]
      rw [heq]
      simp only [except_ok_bind]
      rw [hrec]
      simp only [except_ok_bind, List.map_cons, claimFrags, claimArgOrder,
        List.isEmpty_cons, Bool.false_eq_true, if_false, List.map_append]
      rfl

/-- C3: for a non-empty column list with equal-length value and arg lists,
all entries non-empty, `BuildRangeComparison` with a strict sign (`<` or
`>`) produces the disjunction
`(c1 op v1) or ((c1 = v1) AND (c2 op v2)) or …` (each identifier
backtick-escaped by `EscapeName`) with `explodedArgs` listing, for the
fragment at zero-based index `i`, `args[0:i] ++ [args[i]]`, left to right;
with an inclusive sign (`<=` or `>=`) the disjunction over the
corresponding strict sign is extended with the full equality conjunction
`((c1 = v1) and … and (cn = vn))` and `explodedArgs` additionally ends
with one more copy of all of `args`. -/
theorem c3_BuildRangeComparison (columns values args : List String)
    (sign : String)
    (hne : columns ≠ []) (hlv : values.length = columns.length)
    (hla : args.length = columns.length)
    (hc : ∀ c ∈ columns, c ≠ "") (hv : ∀ v ∈ values, v ≠ "") :
    (sign = "<" ∨ sign = ">" →
      BuildRangeComparison columns values args sign =
        .ok ("(" ++ String.intercalate " or "
            (claimFrags sign [] (columns.zip values)) ++ ")",
          claimArgOrder [] args)) ∧
    ((sign = "<=" ∨ sign = ">=") →
      BuildRangeComparison columns values args sign =
        .ok ("(" ++ String.intercalate " or "
            (claimFrags (if sign = "<=" then "<" else ">") []
                (columns.zip values) ++
              [claimEquals (columns.zip values)]) ++ ")",
          claimArgOrder [] args ++ args)) := by
  have hzip : ((columns.zip values).zip args).map (·.1) = columns.zip values := by
    have h := List.map_fst_zip (columns.zip values) args
      (by rw [List.length_zip]; omega)
    simpa using h
  have hzip2 : ((columns.zip values).zip args).map (·.2) = args := by
    have h := List.map_snd_zip (columns.zip values) args
      (by rw [List.length_zip]; omega)
    simpa using h
  have hmem : ∀ p ∈ (columns.zip values).zip args, p.1.1 ≠ "" ∧ p.1.2 ≠ "" := by
    intro p hp
    have h1 := (List.of_mem_zip hp).1
    have h2 := List.of_mem_zip h1
    exact ⟨hc _ h2.1, hv _ h2.2⟩
  have hauxgen : ∀ s, rangeCompAux s [] ((columns.zip values).zip args) =
      .ok (claimFrags s [] (columns.zip values), claimArgOrder [] args) := by
    intro s
    have h := rangeCompAux_ok s ((columns.zip values).zip args) []
      (by simp) hmem
    rw [hzip, hzip2] at h
    simpa using h
  have hmemz : ∀ p ∈ columns.zip values, p.1 ≠ "" ∧ p.2 ≠ "" := by
    intro p hp
    have h2 := List.of_mem_zip hp
    exact ⟨hc _ h2.1, hv _ h2.2⟩
  have heqall : BuildEqualsComparison columns values =
      .ok (claimEquals (columns.zip values)) :=
    BuildEqualsComparison_ok columns values hne (by omega) hmemz
  have h0 : ¬columns.length = 0 := by simpa using hne
  constructor
  · rintro (rfl | rfl) <;>
    · unfold BuildRangeComparison
      rw [if_neg h0, if_neg (by omega), if_neg (by omega)]
      show (match rangeCompAux _ [] ((columns.zip values).zip args) with
        | Except.error e => Except.error e
        | Except.ok (comparisons, explodedArgs) =>
          Except.ok ("(" ++ String.intercalate " or " comparisons ++ ")",
            explodedArgs)) = _
      rw [hauxgen]
      rfl
  · rintro (rfl | rfl) <;>
    · unfold BuildRangeComparison
      rw [if_neg h0, if_neg (by omega), if_neg (by omega)]
      show (match rangeCompAux _ [] ((columns.zip values).zip args) with
        | Except.error e => Except.error e
        | Except.ok (comparisons, explodedArgs) =>
          match BuildEqualsComparison columns values with
          | Except.error _ => Except.ok ("", explodedArgs)
          | Except.ok comparison =>
            Except.ok ("(" ++
                String.intercalate " or " (comparisons ++ [comparison]) ++ ")",
              explodedArgs ++ args)) = _
      rw [hauxgen, heqall]
      rfl

/-- Witness for C3 at the spec's scenario S6: columns `[a, b]`, values
`[?, ?]`, sign `<=`, args `[a_v, b_v]`; the exploded args come out in the
order `[a_v, a_v, b_v, a_v, b_v]`. -/
theorem c3_BuildRangeComparison_witness :
    BuildRangeComparison ["a", "b"] ["?", "?"] ["a_v", "b_v"] "<=" =
      .ok ("((`a` < ?) or (((`a` = ?)) AND (`b` < ?)) or ((`a` = ?) and (`b` = ?)))",
        ["a_v", "a_v", "b_v", "a_v", "b_v"]) := by
  have h := (c3_BuildRangeComparison ["a", "b"] ["?", "?"] ["a_v", "b_v"] "<="
    (by decide) (by decide) (by decide) (by decide) (by decide)).2
    (Or.inl rfl)
  rw [h]
  rfl

/-! ## Column lists and the ranged insert/select query builders -/

/-- Column type of `umconf.Column`.  Modelled from the spec: the `umconf`
package (`internal/config/mysql`) is not under src/; the builder code only
tests `column.Type == umconf.EnumColumnType`, so only the enum kind is
distinguished. -/
inductive ColumnType
  | enumColumnType
  | otherColumnType
deriving DecidableEq, Repr

/-- A `umconf.Column` as the builder consumes it.  Modelled from the spec:
the builder reads the name, the type, and the optional timezone conversion
(`TimezoneConversion.ToTimezone` when set). -/
structure Column where
  Name : String
  Type' : ColumnType := ColumnType.otherColumnType
  TimezoneConversion : Option String := none
deriving DecidableEq, Repr

/-- A `umconf.ColumnList`.  Modelled from the spec: an ordered list of
columns with name access; `Names()` projects the names in order. -/
structure ColumnList where
  columns : List Column
deriving DecidableEq, Repr

/-- `ColumnList.Names()`. -/
def ColumnList.Names (cl : ColumnList) : List String :=
  cl.columns.map (·.Name)

/-- `ColumnList.Len()`. -/
def ColumnList.Len (cl : ColumnList) : Nat :=
  cl.columns.length

/-- `buildColumnsPreparedValues`: a `?` placeholder per column, wrapped in
`convert_tz` for columns carrying a timezone conversion. -/
def buildColumnsPreparedValues (columns : ColumnList) : List String :=
  columns.columns.map fun column =>
    match column.TimezoneConversion with
    | some toTimezone => "convert_tz(?, '" ++ toTimezone ++ "', '+00:00')"
    | none => "?"

/-- `duplicateNames`: Go copies the slice before mutating it; the copy is
value-identical to its input. -/
def duplicateNames (names : List String) : List String :=
  names

/-- `BuildRangeInsertQuery`: `insert ignore` of the shared columns of the
chunk delimited by the two range predicates into the ghost table.  The Go
raw-string template is reproduced byte for byte. -/
def BuildRangeInsertQuery (databaseName originalTableName ghostTableName :
    String) (sharedColumns mappedSharedColumns : List String)
    (uniqueKey : String) (uniqueKeyColumns : ColumnList)
    (rangeStartValues rangeEndValues rangeStartArgs rangeEndArgs :
      List String)
    (includeRangeStartValues transactionalTable : Bool) :
    Except String (String × List String) :=
  if sharedColumns.length = 0 then
    .error "Got 0 shared columns in BuildRangeInsertQuery"
  else
    let databaseName := EscapeName databaseName
    let originalTableName := EscapeName originalTableName
    let ghostTableName := EscapeName ghostTableName
    let mappedSharedColumnsListing :=
      String.intercalate ", " ((duplicateNames mappedSharedColumns).map EscapeName)
    let sharedColumnsListing :=
      String.intercalate ", " ((duplicateNames sharedColumns).map EscapeName)
    let uniqueKey := EscapeName uniqueKey
    let minRangeComparisonSign :=
      if includeRangeStartValues then GreaterThanOrEqualsComparisonSign
      else GreaterThanComparisonSign
    match BuildRangeComparison uniqueKeyColumns.Names rangeStartValues
      rangeStartArgs minRangeComparisonSign with
    | .error e => .error e
    | .ok (rangeStartComparison, startExplodedArgs) =>
      match BuildRangeComparison uniqueKeyColumns.Names rangeEndValues
        rangeEndArgs LessThanOrEqualsComparisonSign with
      | .error e => .error e
      | .ok (rangeEndComparison, endExplodedArgs) =>
        let explodedArgs := startExplodedArgs ++ endExplodedArgs
        let transactionalClause :=
          if transactionalTable then "lock in share mode" else ""
        let result :=
          "\n      insert ignore into " ++ databaseName ++ "." ++
            ghostTableName ++ " (" ++ mappedSharedColumnsListing ++
            ")\n      (select " ++ sharedColumnsListing ++ " from " ++
            databaseName ++ "." ++ originalTableName ++ " force index (" ++
            uniqueKey ++ ")\n        where (" ++ rangeStartComparison ++
            " and " ++ rangeEndComparison ++ ") " ++ transactionalClause ++
            "\n      )\n    "
        .ok (result, explodedArgs)

/-- The ascending order-by terms of the unique-key columns: enum-typed
columns are wrapped in `concat(...)`. -/
def uniqueKeyAscending (uniqueKeyColumns : ColumnList) : List String :=
  uniqueKeyColumns.columns.map fun column =>
    if column.Type' = ColumnType.enumColumnType then
      "concat(" ++ EscapeName column.Name ++ ") asc"
    else
      EscapeName column.Name ++ " asc"

/-- `BuildRangeSelectQuery`: the chunked select.  The range-start predicate
computation present in `BuildRangeInsertQuery` is commented out in the
source; only the inclusive range-end comparison is built, and the unused
descending order list is omitted here.  The Go raw-string template is
reproduced byte for byte. -/
def BuildRangeSelectQuery (databaseName originalTableName ghostTableName :
    String) (sharedColumns mappedSharedColumns : List String)
    (uniqueKey : String) (uniqueKeyColumns : ColumnList)
    (rangeStartValues rangeEndValues rangeStartArgs rangeEndArgs :
      List String)
    (includeRangeStartValues : Bool) (chunkSize : Int) :
    Except String (String × List String) :=
  if sharedColumns.length = 0 then
    .error "Got 0 shared columns in BuildRangeSelectQuery"
  else
    let databaseName := EscapeName databaseName
    let originalTableName := EscapeName originalTableName
    let sharedColumnsListing :=
      String.intercalate ", " ((duplicateNames sharedColumns).map EscapeName)
    let uniqueKey := EscapeName uniqueKey
    match BuildRangeComparison uniqueKeyColumns.Names rangeEndValues
      rangeEndArgs LessThanOrEqualsComparisonSign with
    | .error e => .error e
    | .ok (rangeEndComparison, endExplodedArgs) =>
      let result :=
        "\n\tselect " ++ sharedColumnsListing ++
          "\n\t\tfrom\n\t\t\t" ++ databaseName ++ "." ++
          originalTableName ++ "\n\t\tforce index (" ++ uniqueKey ++
          ")\n\t\twhere (" ++ rangeEndComparison ++
          ")\n\t\torder by\n\t\t\t" ++
          String.intercalate ", " (uniqueKeyAscending uniqueKeyColumns) ++
          "\n\t\tlimit " ++ toString chunkSize ++ "\n    "
      .ok (result, endExplodedArgs)

/-- C4: `BuildRangeInsertQuery` and `BuildRangeSelectQuery` over the same
unique-key columns and range-end bounds build the same inclusive (`<=`)
range-end predicate; the insert query's `explodedArgs` is the range-start
exploded args followed by the range-end exploded args, and the select
query's `explodedArgs` is exactly the same range-end exploded args, so the
two argument vectors agree on the predicate the queries share. -/
theorem c4_insert_select_consistent (db orig ghost : String)
    (sharedColumns mappedSharedColumns : List String) (uniqueKey : String)
    (ukCols : ColumnList)
    (rangeStartValues rangeEndValues rangeStartArgs rangeEndArgs :
      List String)
    (includeRangeStartValues transactionalTable : Bool) (chunkSize : Int)
    (sc ec : String) (sa ea : List String)
    (hshared : sharedColumns ≠ [])
    (hstart : BuildRangeComparison ukCols.Names rangeStartValues
      rangeStartArgs
      (if includeRangeStartValues then GreaterThanOrEqualsComparisonSign
       else GreaterThanComparisonSign) = .ok (sc, sa))
    (hend : BuildRangeComparison ukCols.Names rangeEndValues rangeEndArgs
      LessThanOrEqualsComparisonSign = .ok (ec, ea)) :
    (BuildRangeInsertQuery db orig ghost sharedColumns
        mappedSharedColumns uniqueKey ukCols rangeStartValues rangeEndValues
        rangeStartArgs rangeEndArgs includeRangeStartValues
        transactionalTable).map Prod.snd = .ok (sa ++ ea) ∧
    (BuildRangeSelectQuery db orig ghost sharedColumns
        mappedSharedColumns uniqueKey ukCols rangeStartValues rangeEndValues
        rangeStartArgs rangeEndArgs includeRangeStartValues chunkSize).map
        Prod.snd = .ok ea := by
  have h0 : ¬sharedColumns.length = 0 := by simpa using hshared
  constructor
  · unfold BuildRangeInsertQuery
    rw [if_neg h0]
    simp only [hstart, hend]
    rfl
  · unfold BuildRangeSelectQuery
    rw [if_neg h0]
    simp only [hend]
    rfl

/-- Witness for C4 at concrete inputs: two unique-key columns, start args
`[s1, s2]`, end args `[e1, e2]`; the insert args are
`[s1,s1,s2,s1,s2] ++ [e1,e1,e2,e1,e2]` and the select args
`[e1,e1,e2,e1,e2]`. -/
theorem c4_insert_select_consistent_witness :
    (BuildRangeInsertQuery "db" "tbl" "gho" ["a", "b"] ["a", "b"]
        "PRIMARY" ⟨[⟨"a", .otherColumnType, none⟩, ⟨"b", .enumColumnType, none⟩]⟩
        ["?", "?"] ["?", "?"] ["s1", "s2"] ["e1", "e2"] true true).map
        Prod.snd =
      .ok (["s1", "s1", "s2", "s1", "s2"] ++ ["e1", "e1", "e2", "e1", "e2"]) ∧
    (BuildRangeSelectQuery "db" "tbl" "gho" ["a", "b"] ["a", "b"]
        "PRIMARY" ⟨[⟨"a", .otherColumnType, none⟩, ⟨"b", .enumColumnType, none⟩]⟩
        ["?", "?"] ["?", "?"] ["s1", "s2"] ["e1", "e2"] true 1000).map
        Prod.snd =
      .ok ["e1", "e1", "e2", "e1", "e2"] :=
  c4_insert_select_consistent "db" "tbl" "gho" ["a", "b"] ["a", "b"]
    "PRIMARY" ⟨[⟨"a", .otherColumnType, none⟩, ⟨"b", .enumColumnType, none⟩]⟩
    ["?", "?"] ["?", "?"] ["s1", "s2"] ["e1", "e2"] true true 1000
    _ _ _ _ (by decide) (by rfl) (by rfl)

/-- C5: on the success path, `BuildRangeSelectQuery` returns exactly the
query `select <escaped shared columns> from db.table force index
(<escaped unique key>) where (<inclusive range-end predicate only>)
order by <unique-key columns ascending, enum columns wrapped in concat>
limit <chunkSize>`, with `explodedArgs` exactly the exploded range-end
args; and the result does not depend on the range-start values, args, or
the `includeRangeStartValues` flag at all (no lower-bound predicate and no
start args are included). -/
theorem c5_BuildRangeSelectQuery (db orig ghost : String)
    (sharedColumns mappedSharedColumns : List String) (uniqueKey : String)
    (ukCols : ColumnList)
    (rangeStartValues rangeEndValues rangeStartArgs rangeEndArgs :
      List String)
    (includeRangeStartValues : Bool) (chunkSize : Int)
    (ec : String) (ea : List String)
    (hshared : sharedColumns ≠ [])
    (hend : BuildRangeComparison ukCols.Names rangeEndValues rangeEndArgs
      LessThanOrEqualsComparisonSign = .ok (ec, ea)) :
    BuildRangeSelectQuery db orig ghost sharedColumns mappedSharedColumns
        uniqueKey ukCols rangeStartValues rangeEndValues rangeStartArgs
        rangeEndArgs includeRangeStartValues chunkSize =
      .ok ("\n\tselect " ++
          String.intercalate ", " (sharedColumns.map EscapeName) ++
          "\n\t\tfrom\n\t\t\t" ++ EscapeName db ++ "." ++
          EscapeName orig ++ "\n\t\tforce index (" ++
          EscapeName uniqueKey ++ ")\n\t\twhere (" ++ ec ++
          ")\n\t\torder by\n\t\t\t" ++
          String.intercalate ", " (uniqueKeyAscending ukCols) ++
          "\n\t\tlimit " ++ toString chunkSize ++ "\n    ", ea) ∧
    (∀ (sv sa : List String) (inc : Bool),
      BuildRangeSelectQuery db orig ghost sharedColumns mappedSharedColumns
        uniqueKey ukCols sv rangeEndValues sa rangeEndArgs inc chunkSize =
      BuildRangeSelectQuery db orig ghost sharedColumns mappedSharedColumns
        uniqueKey ukCols rangeStartValues rangeEndValues rangeStartArgs
        rangeEndArgs includeRangeStartValues chunkSize) := by
  have h0 : ¬sharedColumns.length = 0 := by simpa using hshared
  constructor
  · unfold BuildRangeSelectQuery
    rw [if_neg h0]
    simp only [hend, duplicateNames]
  · intro sv sa inc
    rfl

/-- Witness for C5 at concrete inputs, showing the full emitted query text
with `force index`, the single inclusive upper-bound `where` clause, the
`concat(...)` ascending order for the enum column, and the chunk limit. -/
theorem c5_BuildRangeSelectQuery_witness :
    BuildRangeSelectQuery "db" "tbl" "gho" ["a", "b"] ["a", "b"] "PRIMARY"
        ⟨[⟨"a", .otherColumnType, none⟩, ⟨"b", .enumColumnType, none⟩]⟩
        ["?", "?"] ["?", "?"] ["s1", "s2"] ["e1", "e2"] true 1000 =
      .ok ("\n\tselect `a`, `b`\n\t\tfrom\n\t\t\t`db`.`tbl`" ++
        "\n\t\tforce index (`PRIMARY`)\n\t\twhere (((`a` < ?) or " ++
        "(((`a` = ?)) AND (`b` < ?)) or ((`a` = ?) and (`b` = ?)))" ++
        ")\n\t\torder by\n\t\t\t`a` asc, concat(`b`) asc" ++
        "\n\t\tlimit 1000\n    ",
        ["e1", "e1", "e2", "e1", "e2"]) := by
  have h := (c5_BuildRangeSelectQuery "db" "tbl" "gho" ["a", "b"] ["a", "b"]
    "PRIMARY" ⟨[⟨"a", .otherColumnType, none⟩, ⟨"b", .enumColumnType, none⟩]⟩
    ["?", "?"] ["?", "?"] ["s1", "s2"] ["e1", "e2"] true 1000
    _ _ (by decide) (by rfl)).1
  rw [h]
  rfl

/-! ## Destroy / UnblockStart latches (`Worker.Destroy`, `Worker.UnblockStart`) -/

/-- The latch fields of `Worker` guarded by `destroyLock` / `unblockLock`,
with channel-close counters: closing a Go channel twice panics, so the
counter witnesses that `close` runs exactly once. -/
structure WorkerLatches where
  destroy : Bool
  destroyEvent : Option String
  destroyChCloses : Nat
  unblocked : Bool
  unblockChCloses : Nat
deriving DecidableEq, Repr

/-- The latch state of a worker fresh out of `NewWorker`. -/
def newWorkerLatches : WorkerLatches :=
  { destroy := false, destroyEvent := none, destroyChCloses := 0,
    unblocked := false, unblockChCloses := 0 }

/-- `Worker.Destroy(event)` under `destroyLock`: return if the latch is
already set; otherwise set it, store the event, and close `destroyCh`. -/
def Destroy (w : WorkerLatches) (event : String) : WorkerLatches :=
  if w.destroy then w
  else { w with
    destroy := true
    destroyEvent := some event
    destroyChCloses := w.destroyChCloses + 1 }

/-- `Worker.UnblockStart(source)` under `unblockLock`: return if already
unblocked; otherwise set the latch and close `unblockCh`. -/
def UnblockStart (w : WorkerLatches) (source : String) : WorkerLatches :=
  if w.unblocked then w
  else { w with
    unblocked := true
    unblockChCloses := w.unblockChCloses + 1 }

/-- `N` consecutive `Destroy` calls with the given events. -/
def destroyN (w : WorkerLatches) : List String → WorkerLatches
  | [] => w
  | e :: es => destroyN (Destroy w e) es

/-- `N` consecutive `UnblockStart` calls with the given sources. -/
def unblockN (w : WorkerLatches) : List String → WorkerLatches
  | [] => w
  | src :: srcs => unblockN (UnblockStart w src) srcs

theorem destroyN_latched :
    ∀ (es : List String) (w : WorkerLatches), w.destroy = true →
      destroyN w es = w := by
  intro es
  induction es with
  | nil => intro w _; rfl
  | cons e es ih =>
    intro w hw
    show destroyN (Destroy w e) es = w
    rw [Destroy, if_pos hw, ih w hw]

theorem unblockN_latched :
    ∀ (srcs : List String) (w : WorkerLatches), w.unblocked = true →
      unblockN w srcs = w := by
  intro srcs
  induction srcs with
  | nil => intro w _; rfl
  | cons src srcs ih =>
    intro w hw
    show unblockN (UnblockStart w src) srcs = w
    rw [UnblockStart, if_pos hw, ih w hw]

/-- C6: `Destroy` and `UnblockStart` are idempotent.  From the fresh
supervisor, `N ≥ 1` `Destroy` calls leave the same state as the single
first call: the latch is set, the first event is stored, and `destroyCh`
was closed exactly once — later calls (with any events) change nothing;
and likewise for `UnblockStart` on the unblocked latch and `unblockCh`. -/
theorem c6_destroy_unblock_idempotent (e : String) (es : List String)
    (src : String) (srcs : List String) :
    destroyN newWorkerLatches (e :: es) = Destroy newWorkerLatches e ∧
    (destroyN newWorkerLatches (e :: es)).destroy = true ∧
    (destroyN newWorkerLatches (e :: es)).destroyEvent = some e ∧
    (destroyN newWorkerLatches (e :: es)).destroyChCloses = 1 ∧
    unblockN newWorkerLatches (src :: srcs) =
      UnblockStart newWorkerLatches src ∧
    (unblockN newWorkerLatches (src :: srcs)).unblocked = true ∧
    (unblockN newWorkerLatches (src :: srcs)).unblockChCloses = 1 := by
  have hd : destroyN newWorkerLatches (e :: es) =
      Destroy newWorkerLatches e := by
    show destroyN (Destroy newWorkerLatches e) es = _
    exact destroyN_latched es _ rfl
  have hu : unblockN newWorkerLatches (src :: srcs) =
      UnblockStart newWorkerLatches src := by
    show unblockN (UnblockStart newWorkerLatches src) srcs = _
    exact unblockN_latched srcs _ rfl
  refine ⟨hd, ?_, ?_, ?_, hu, ?_, ?_⟩
  · rw [hd]; simp [Destroy, newWorkerLatches]
  · rw [hd]; simp [Destroy, newWorkerLatches]
  · rw [hd]; simp [Destroy, newWorkerLatches]
  · rw [hu]; simp [UnblockStart, newWorkerLatches]
  · rw [hu]; simp [UnblockStart, newWorkerLatches]

/-! ## State persistence (`Worker.SaveState`, `Worker.RestoreState`) -/

/-- A driver handle as the supervisor sees it (`handle.ID()`). -/
structure Handle where
  id : String
deriving DecidableEq, Repr

/-- The fields of `Worker` that `SaveState` / `RestoreState` touch. -/
structure WorkerState where
  version : String
  task : String
  payloadRendered : Bool
  handle : Option Handle
  running : Bool
deriving DecidableEq, Repr

/-- The persisted snapshot `workerState` (`Version`, `Task`, `HandleID`,
`PayloadRendered`); `Task` is a pointer in Go, hence optional. -/
structure Snapshot where
  Version : String
  Task : Option String
  HandleID : String
  PayloadRendered : Bool
deriving DecidableEq, Repr

/-- `Worker.SaveState`: snapshot the task, version, and payload flag, with
`HandleID` taken from the live handle when one exists, else empty. -/
def SaveState (w : WorkerState) : Snapshot :=
  { Version := w.version
    Task := some w.task
    HandleID := match w.handle with
      | some h => h.id
      | none => ""
    PayloadRendered := w.payloadRendered }

/-- `Worker.RestoreState` reading snapshot `snap` into worker `w`:
fails if the snapshot's task is nil; otherwise replaces `task` and
`payloadRendered`; when `HandleID` is non-empty, builds a driver
(`createDrv` models `createDriver()`) and opens the handle (`openFn`
models `driver.Open`); an open failure is logged and restore still
returns success with the handle left untouched. -/
def RestoreState (w : WorkerState) (snap : Snapshot)
    (createDrv : Except String Unit)
    (openFn : String → Except String Handle) : Except String WorkerState :=
  match snap.Task with
  | none => .error "task runner snapshot includes nil Task"
  | some t =>
    let w := { w with task := t, payloadRendered := snap.PayloadRendered }
    if snap.HandleID ≠ "" then
      match createDrv with
      | .error e => .error e
      | .ok _ =>
        match openFn snap.HandleID with
        | .error _ => .ok w
        | .ok handle => .ok { w with handle := some handle, running := true }
    else .ok w

/-- C7: `SaveState` then `RestoreState` on a fresh supervisor reconstructs
`task` and `payloadRendered` exactly; if a handle was live when saving (so
a non-empty `HandleID` was recorded) and `driver.open` succeeds on that id,
the restored supervisor has the opened handle installed and
`running = true`; if `driver.open` fails, restore still succeeds and the
fresh supervisor's (empty) handle is left untouched; with no saved handle,
no open is attempted. -/
theorem c7_save_restore_roundtrip (w fresh : WorkerState)
    (openFn : String → Except String Handle) :
    (∀ h h', w.handle = some h → h.id ≠ "" → openFn h.id = .ok h' →
      RestoreState fresh (SaveState w) (.ok ()) openFn =
        .ok { fresh with
          task := w.task
          payloadRendered := w.payloadRendered
          handle := some h'
          running := true }) ∧
    (∀ h e, w.handle = some h → h.id ≠ "" → openFn h.id = .error e →
      RestoreState fresh (SaveState w) (.ok ()) openFn =
        .ok { fresh with
          task := w.task
          payloadRendered := w.payloadRendered }) ∧
    (w.handle = none →
      RestoreState fresh (SaveState w) (.ok ()) openFn =
        .ok { fresh with
          task := w.task
          payloadRendered := w.payloadRendered }) := by
  refine ⟨?_, ?_, ?_⟩
  · intro h h' hh hid hopen
    rw [RestoreState, SaveState]
    simp only [hh]
    rw [if_pos hid, hopen]
  · intro h e hh hid hopen
    rw [RestoreState, SaveState]
    simp only [hh]
    rw [if_pos hid, hopen]
  · intro hh
    rw [RestoreState, SaveState]
    simp only [hh]
    rw [if_neg (by simp)]

/-- Witness for C7 at a concrete worker: handle `h1` saved; a succeeding
open installs the reopened handle with `running = true`, a failing open
leaves the fresh worker's empty handle, and without a handle no open is
consulted. -/
theorem c7_save_restore_roundtrip_witness :
    (RestoreState ⟨"v1", "t0", false, none, false⟩
        (SaveState ⟨"v1", "extract", true, some ⟨"h1"⟩, true⟩) (.ok ())
        (fun i => if i = "h1" then .ok ⟨"h1-reopened"⟩ else .error "no") =
      .ok ⟨"v1", "extract", true, some ⟨"h1-reopened"⟩, true⟩) ∧
    (RestoreState ⟨"v1", "t0", false, none, false⟩
        (SaveState ⟨"v1", "extract", true, some ⟨"h1"⟩, true⟩) (.ok ())
        (fun _ => .error "gone") =
      .ok ⟨"v1", "extract", true, none, false⟩) ∧
    (RestoreState ⟨"v1", "t0", false, none, false⟩
        (SaveState ⟨"v1", "extract", true, none, false⟩) (.ok ())
        (fun _ => .error "gone") =
      .ok ⟨"v1", "extract", true, none, false⟩) := by
  refine ⟨?_, ?_, ?_⟩
  · exact (c7_save_restore_roundtrip ⟨"v1", "extract", true, some ⟨"h1"⟩, true⟩
      ⟨"v1", "t0", false, none, false⟩
      (fun i => if i = "h1" then .ok ⟨"h1-reopened"⟩ else .error "no")).1
      ⟨"h1"⟩ ⟨"h1-reopened"⟩ rfl (by decide) rfl
  · exact (c7_save_restore_roundtrip ⟨"v1", "extract", true, some ⟨"h1"⟩, true⟩
      ⟨"v1", "t0", false, none, false⟩ (fun _ => .error "gone")).2.1
      ⟨"h1"⟩ "gone" rfl (by decide) rfl
  · exact (c7_save_restore_roundtrip ⟨"v1", "extract", true, none, false⟩
      ⟨"v1", "t0", false, none, false⟩ (fun _ => .error "gone")).2.2 rfl

/-! ## `Worker.prestart` and its unreachable unblock path -/

/-- Control locations of `Worker.prestart`.  `blockedSelect` is the second
`select` (waiting on `unblockCh` / `waitCh`) that follows the unconditional
`resultCh <- true; return`. -/
inductive PrestartPC
  | entry
  | report
  | blockedSelect
  | exited
deriving DecidableEq, Repr

/-- Observable state of one `prestart` invocation: program counter, whether
`startCh` (capacity 1) holds a buffered signal, and the values sent on
`resultCh` in order. -/
structure PrestartState where
  pc : PrestartPC
  startChBuffered : Bool
  results : List Bool
deriving DecidableEq, Repr

/-- One statement step of `Worker.prestart`: from `entry` the non-blocking
`select { case r.startCh <- struct{}{}: default: }` leaves exactly one
buffered signal whether or not one was already pending (coalescing), and
control falls to the report statement; `resultCh <- true` is followed by
`return`.  No statement transfers control to `blockedSelect`. -/
def prestartStep (s : PrestartState) : PrestartState :=
  match s.pc with
  | .entry => { s with pc := .report, startChBuffered := true }
  | .report => { s with pc := .exited, results := s.results ++ [true] }
  | .blockedSelect => s
  | .exited => s

/-- States reachable in one `prestart` invocation, from any initial
`startCh` buffering. -/
inductive PrestartReach : PrestartState → Prop
  | init (b : Bool) : PrestartReach ⟨.entry, b, []⟩
  | step {s : PrestartState} : PrestartReach s → PrestartReach (prestartStep s)

theorem prestartReach_invariant {s : PrestartState} (h : PrestartReach s) :
    (s.pc = PrestartPC.entry ∧ s.results = []) ∨
    (s.pc = PrestartPC.report ∧ s.results = [] ∧ s.startChBuffered = true) ∨
    (s.pc = PrestartPC.exited ∧ s.results = [true] ∧
      s.startChBuffered = true) := by
  induction h with
  | init b => exact Or.inl ⟨rfl, rfl⟩
  | step _ ih =>
    rename_i t _
    rcases ih with ⟨hpc, hr⟩ | ⟨hpc, hr, hb⟩ | ⟨hpc, hr, hb⟩
    · refine Or.inr (Or.inl ?_)
      rw [prestartStep, hpc]
      exact ⟨rfl, hr, rfl⟩
    · refine Or.inr (Or.inr ?_)
      rw [prestartStep, hpc]
      refine ⟨rfl, ?_, hb⟩
      simp [hr]
    · refine Or.inr (Or.inr ?_)
      rw [prestartStep, hpc]
      exact ⟨hpc, hr, hb⟩

/-- C8: in every invocation of `prestart`, the code path that waits on
`unblockCh` (the second select) is unreachable; when the invocation exits
it has reported exactly one `true` on its result channel (never `false`)
and `startCh` holds at most one buffered signal — exactly one here — no
matter how many start requests were pending before. -/
theorem c8_prestart (s : PrestartState) (h : PrestartReach s) :
    s.pc ≠ PrestartPC.blockedSelect ∧
    (s.pc = PrestartPC.exited →
      s.results = [true] ∧ s.startChBuffered = true) := by
  rcases prestartReach_invariant h with ⟨hpc, _⟩ | ⟨hpc, _, _⟩ | ⟨hpc, hr, hb⟩
  · rw [hpc]; exact ⟨by simp, by simp⟩
  · rw [hpc]; exact ⟨by simp, by simp⟩
  · rw [hpc]; exact ⟨by simp, fun _ => ⟨hr, hb⟩⟩

/-- Witness for C8 at a complete concrete invocation (with a start signal
already pending at entry, which coalesces). -/
theorem c8_prestart_witness :
    (⟨PrestartPC.exited, true, [true]⟩ : PrestartState).pc ≠
        PrestartPC.blockedSelect ∧
      ((⟨PrestartPC.exited, true, [true]⟩ : PrestartState).pc =
          PrestartPC.exited →
        (⟨PrestartPC.exited, true, [true]⟩ : PrestartState).results = [true] ∧
        (⟨PrestartPC.exited, true, [true]⟩ :
          PrestartState).startChBuffered = true) :=
  c8_prestart _ (PrestartReach.step (PrestartReach.step (PrestartReach.init true)))

/-! ## Stats collector (`Worker.collectResourceUsageStats`) -/

/-- A resource-usage sample (`*models.TaskStatistics`), opaque here. -/
structure TaskStatistics where
  data : String
deriving DecidableEq, Repr

/-- Message of the sentinel error `driver.DriverStatsNotImplemented`.
Modelled from the spec: the driver package is not under src/; the collector
compares `err.Error()` against this sentinel's message. -/
def driverStatsNotImplementedMsg : String := "stats not implemented"

/-- Observable collector state: the supervisor's `taskStats` field, the
samples published via `emitStats`, and the warnings logged. -/
structure CollectorState where
  taskStats : Option TaskStatistics
  published : List TaskStatistics
  warns : List String
deriving DecidableEq, Repr

/-- One scheduled input of the collector loop: the interval timer fires
(`tick`) carrying the current handle — `none` when the supervisor cleared
it — and, when present, the outcome of `handle.Stats()` (`.ok none` models
a nil sample with nil error); or `stopCollection` is observed closed. -/
inductive CollectorInput
  | tick (handle : Option (Except String (Option TaskStatistics)))
  | stop
deriving Repr

/-- Does the character list start with the given pattern? -/
def startsWithChars : List Char → List Char → Bool
  | _, [] => true
  | [], _ :: _ => false
  | a :: as, b :: bs => (a = b) && startsWithChars as bs

/-- Does the character list contain the pattern as a contiguous run? -/
def containsChars : List Char → List Char → Bool
  | [], sub => sub.isEmpty
  | a :: as, sub => startsWithChars (a :: as) sub || containsChars as sub

/-- Substring test (Go `strings.Contains`). -/
def strContains (s sub : String) : Bool :=
  containsChars s.data sub.data

/-- The loop of `Worker.collectResourceUsageStats`, driven by the scheduled
inputs: a nil handle skips the sample; a stats error equal to the
not-implemented sentinel returns permanently; an error whose message
contains "connection is shut down" is suppressed; any other error is
logged at warn and sampling continues; on success `taskStats` is updated
and a non-nil sample is published. -/
def collectLoop (st : CollectorState) :
    List CollectorInput → CollectorState
  | [] => st
  | CollectorInput.stop :: _ => st
  | CollectorInput.tick none :: rest => collectLoop st rest
  | CollectorInput.tick (some res) :: rest =>
    match res with
    | .error err =>
      if err = driverStatsNotImplementedMsg then st
      else if strContains err "connection is shut down" then
        collectLoop st rest
      else collectLoop { st with warns := st.warns ++ [err] } rest
    | .ok ru =>
      match ru with
      | some sample =>
        collectLoop { st with
          taskStats := ru
          published := st.published ++ [sample] } rest
      | none => collectLoop { st with taskStats := ru } rest

/-- C9: in each sampling step, the not-implemented sentinel makes the
collector return permanently (the remaining schedule is never consumed and
nothing further is published); a "connection is shut down" error is
suppressed — no warning — and sampling continues; any other error logs one
warning and sampling continues; on success `taskStats` is updated and the
sample, when non-nil, is published. -/
theorem c9_collector_policy (st : CollectorState)
    (rest : List CollectorInput) :
    (∀ err, err = driverStatsNotImplementedMsg →
      collectLoop st (CollectorInput.tick (some (.error err)) :: rest) =
        st) ∧
    (∀ err, err ≠ driverStatsNotImplementedMsg →
      strContains err "connection is shut down" = true →
      collectLoop st (CollectorInput.tick (some (.error err)) :: rest) =
        collectLoop st rest) ∧
    (∀ err, err ≠ driverStatsNotImplementedMsg →
      strContains err "connection is shut down" = false →
      collectLoop st (CollectorInput.tick (some (.error err)) :: rest) =
        collectLoop { st with warns := st.warns ++ [err] } rest) ∧
    (∀ sample,
      collectLoop st (CollectorInput.tick (some (.ok (some sample))) :: rest)
        = collectLoop { st with
            taskStats := some sample
            published := st.published ++ [sample] } rest) ∧
    (collectLoop st (CollectorInput.tick (some (.ok none)) :: rest) =
      collectLoop { st with taskStats := none } rest) ∧
    (collectLoop st (CollectorInput.stop :: rest) = st) := by
  refine ⟨?_, ?_, ?_, ?_, rfl, rfl⟩
  · intro err herr
    rw [collectLoop, if_pos herr]
  · intro err herr hsub
    rw [collectLoop, if_neg herr, if_pos hsub]
  · intro err herr hsub
    rw [collectLoop, if_neg herr]
    rw [if_neg (by rw [hsub]; exact Bool.false_ne_true)]
  · intro sample
    rfl

/-- Witness for C9 at concrete inputs: the sentinel error stops the
collector with nothing published even though a later tick would have
succeeded; a transport-shutdown error is silently skipped; an ordinary
error is logged; a successful non-nil sample is stored and published. -/
theorem c9_collector_policy_witness :
    collectLoop ⟨none, [], []⟩
        [CollectorInput.tick (some (.error "stats not implemented")),
         CollectorInput.tick (some (.ok (some ⟨"s1"⟩)))] =
      ⟨none, [], []⟩ ∧
    collectLoop ⟨none, [], []⟩
        [CollectorInput.tick (some (.error
          "rpc error: connection is shut down"))] = ⟨none, [], []⟩ ∧
    collectLoop ⟨none, [], []⟩
        [CollectorInput.tick (some (.error "boom"))] =
      ⟨none, [], ["boom"]⟩ ∧
    collectLoop ⟨none, [], []⟩
        [CollectorInput.tick (some (.ok (some ⟨"s1"⟩)))] =
      ⟨some ⟨"s1"⟩, [⟨"s1"⟩], []⟩ := by
  refine ⟨?_, ?_, ?_, ?_⟩
  · exact (c9_collector_policy ⟨none, [], []⟩
      [CollectorInput.tick (some (.ok (some ⟨"s1"⟩)))]).1
      "stats not implemented" rfl
  · rw [(c9_collector_policy ⟨none, [], []⟩ []).2.1
      "rpc error: connection is shut down" (by decide) (by decide)]
    rfl
  · rw [(c9_collector_policy ⟨none, [], []⟩ []).2.2.1 "boom" (by decide)
      (by decide)]
    rfl
  · rw [(c9_collector_policy ⟨none, [], []⟩ []).2.2.2.1 ⟨"s1"⟩]
    rfl

/-! ## `BuildDMLUpdateQuery` and its discarded clause-builder errors -/

/-- `BuildSetPreparedClause`: `col=?` tokens (with `convert_tz` for
timezone columns) joined by `, `; errors on an empty column list. -/
def BuildSetPreparedClause (columns : ColumnList) : Except String String :=
  if columns.Len = 0 then
    .error "Got 0 columns in BuildSetPreparedClause"
  else
    .ok (String.intercalate ", " (columns.columns.map fun column =>
      match column.TimezoneConversion with
      | some toTimezone =>
        EscapeName column.Name ++ "=convert_tz(?, '" ++ toTimezone ++
          "', '+00:00')"
      | none => EscapeName column.Name ++ "=?"))

/-- `ColumnList.Ordinals[name]`.  Modelled from the spec/usage: the
name-to-ordinal map is built from the list order; looking up a missing name
in a Go map yields the zero value 0. -/
def ColumnList.Ordinals (cl : ColumnList) (name : String) : Nat :=
  if cl.Names.contains name then cl.Names.indexOf name else 0

/-- `ColumnList.IsSubsetOf`.  Modelled from the spec/usage: every column
name occurs in the other list. -/
def ColumnList.IsSubsetOf (cl other : ColumnList) : Bool :=
  cl.Names.all fun n => other.Names.contains n

/-- The Go raw-string template of `BuildDMLUpdateQuery`, byte for byte
(including the stray blanks before some tabs in the source literal). -/
def dmlUpdateTemplate (databaseName tableName setClause equalsComparison :
    String) : String :=
  "\n \t\t\tupdate\n \t\t\t\t\t" ++ databaseName ++ "." ++ tableName ++
    "\n\t\t\t\tset\n\t\t\t\t\t" ++ setClause ++
    "\n\t\t\t\twhere\n \t\t\t\t\t" ++ equalsComparison ++ "\n \t\t"

/-- `BuildDMLUpdateQuery`: after its four explicit checks it converts the
shared-column args per row and the where args per table column
(`convertArg` models the external `column.ConvertArg`), then calls
`BuildSetPreparedClause` and `BuildEqualsPreparedComparison`.  As in the
source, the error of the first call is overwritten by the second and the
function finally returns a nil error unconditionally, so a failed clause
builder leaves an empty clause in the query instead of failing. -/
def BuildDMLUpdateQuery (databaseName tableName : String)
    (tableColumns sharedColumns mappedSharedColumns : ColumnList)
    (columnValues : List (List String)) (whereArgs : List String)
    (convertArg : Column → String → String) :
    Except String (String × List String × List String) :=
  if columnValues.any fun valueArgs =>
      valueArgs.length != tableColumns.Len then
    .error "value args count differs from table column count in BuildDMLUpdateQuery"
  else if whereArgs.length != tableColumns.Len then
    .error "where args count differs from table column count in BuildDMLUpdateQuery"
  else if !sharedColumns.IsSubsetOf tableColumns then
    .error "shared columns is not a subset of table columns in BuildDMLUpdateQuery"
  else if sharedColumns.Len = 0 then
    .error "No shared columns found in BuildDMLUpdateQuery"
  else
    let sharedArgs := columnValues.flatMap fun valueArgs =>
      sharedColumns.columns.map fun column =>
        convertArg column
          (valueArgs.getD (tableColumns.Ordinals column.Name) "")
    let uniqueKeyArgs := tableColumns.columns.map fun column =>
      convertArg column
        (whereArgs.getD (tableColumns.Ordinals column.Name) "")
    let setClause := match BuildSetPreparedClause mappedSharedColumns with
      | .ok s => s
      | .error _ => ""
    let equalsComparison :=
      match BuildEqualsPreparedComparison tableColumns.Names with
      | .ok s => s
      | .error _ => ""
    .ok (dmlUpdateTemplate (EscapeName databaseName)
        (EscapeName tableName) setClause equalsComparison,
      sharedArgs, uniqueKeyArgs)

/-- C10: whenever its four explicit checks pass, `BuildDMLUpdateQuery`
returns a nil error — in particular even when `BuildSetPreparedClause`
fails (for example, when `mappedSharedColumns` is empty): the clause
builders' errors are overwritten or discarded, and the returned query
simply contains the empty set clause. -/
theorem c10_BuildDMLUpdateQuery_swallows_errors (databaseName tableName :
    String) (tableColumns sharedColumns mappedSharedColumns : ColumnList)
    (columnValues : List (List String)) (whereArgs : List String)
    (convertArg : Column → String → String)
    (h1 : ∀ va ∈ columnValues, va.length = tableColumns.Len)
    (h2 : whereArgs.length = tableColumns.Len)
    (h3 : sharedColumns.IsSubsetOf tableColumns = true)
    (h4 : sharedColumns.Len ≠ 0) :
    (∃ out, BuildDMLUpdateQuery databaseName tableName tableColumns
      sharedColumns mappedSharedColumns columnValues whereArgs convertArg =
      .ok out) ∧
    (mappedSharedColumns.Len = 0 →
      BuildSetPreparedClause mappedSharedColumns =
        .error "Got 0 columns in BuildSetPreparedClause" ∧
      (BuildDMLUpdateQuery databaseName tableName tableColumns sharedColumns
        mappedSharedColumns columnValues whereArgs convertArg).map
        (fun out => out.1) =
        .ok (dmlUpdateTemplate (EscapeName databaseName)
          (EscapeName tableName) ""
          (match BuildEqualsPreparedComparison tableColumns.Names with
           | .ok s => s
           | .error _ => ""))) := by
  have hany : (columnValues.any fun valueArgs =>
      valueArgs.length != tableColumns.Len) = false := by
    rw [List.any_eq_false]
    intro va hva
    simp [h1 va hva]
  have hq : BuildDMLUpdateQuery databaseName tableName tableColumns
      sharedColumns mappedSharedColumns columnValues whereArgs convertArg =
      .ok (dmlUpdateTemplate (EscapeName databaseName)
          (EscapeName tableName)
          (match BuildSetPreparedClause mappedSharedColumns with
           | .ok s => s
           | .error _ => "")
          (match BuildEqualsPreparedComparison tableColumns.Names with
           | .ok s => s
           | .error _ => ""),
        columnValues.flatMap fun valueArgs =>
          sharedColumns.columns.map fun column =>
            convertArg column
              (valueArgs.getD (tableColumns.Ordinals column.Name) ""),
        tableColumns.columns.map fun column =>
          convertArg column
            (whereArgs.getD (tableColumns.Ordinals column.Name) "")) := by
    unfold BuildDMLUpdateQuery
    rw [if_neg (by rw [hany]; exact Bool.false_ne_true),
      if_neg (by simp [h2]),
      if_neg (by rw [h3]; simp),
      if_neg h4]
  refine ⟨⟨_, hq⟩, ?_⟩
  intro hmapped
  have hset : BuildSetPreparedClause mappedSharedColumns =
      .error "Got 0 columns in BuildSetPreparedClause" := by
    rw [BuildSetPreparedClause, if_pos hmapped]
  refine ⟨hset, ?_⟩
  rw [hq, hset]
  rfl

/-- Witness for C10 at a concrete input with an empty
`mappedSharedColumns`: the checks pass, `BuildSetPreparedClause` fails, and
the function still returns `ok` with an empty set clause in the query. -/
theorem c10_BuildDMLUpdateQuery_swallows_errors_witness :
    BuildSetPreparedClause ⟨[]⟩ =
      .error "Got 0 columns in BuildSetPreparedClause" ∧
    (BuildDMLUpdateQuery "db" "tbl" ⟨[⟨"c1", .otherColumnType, none⟩]⟩
      ⟨[⟨"c1", .otherColumnType, none⟩]⟩ ⟨[]⟩ [["x"]] ["w"]
      (fun _ arg => arg)).map (fun out => out.1) =
      .ok (dmlUpdateTemplate "`db`" "`tbl`" "" "((`c1` = ?))") := by
  have h := (c10_BuildDMLUpdateQuery_swallows_errors "db" "tbl"
    ⟨[⟨"c1", .otherColumnType, none⟩]⟩ ⟨[⟨"c1", .otherColumnType, none⟩]⟩
    ⟨[]⟩ [["x"]] ["w"] (fun _ arg => arg)
    (by intro va hva; simp at hva; simp [hva, ColumnList.Len])
    (by rfl) (by rfl) (by decide)).2 rfl
  exact ⟨h.1, by rw [h.2]; rfl⟩

end Dtle
